import Mathlib

/-!
Shallow embedding of the extraction-and-enrichment pipeline of
`spanish-pipeline-rs` (files `src/pipeline/visual_vocab.rs`,
`src/spider/spanish_dict.rs`, `src/spider/google_image.rs`).

External effects (HTTP fetches, the sentence-embedding model, the random
number generator) are passed in as explicit oracle arguments; the control
flow of each Rust function is translated directly.  A Rust panic
(`unwrap`, `expect`, out-of-bounds indexing, `% 0`) is modelled by the
`Option.none` outcome of the embedding, while a returned `Result` is an
`Except` value inside `Option.some`.
-/

namespace SpanishPipeline

/-! ## A model of `f32` values

Only ordering behaviour of the scores matters for the reranker claims, so
an `f32` score is modelled as either a NaN or an exact rational.  All
IEEE comparisons involving NaN are false, and `partial_cmp` on a NaN
returns `None`. -/

inductive Fl where
  | nan : Fl
  | val : ℚ → Fl
deriving DecidableEq, Repr

/-- IEEE `>`: any comparison involving a NaN is false
(Rust `*x.1 > threshold` in `deep_search`). -/
def Fl.gtB : Fl → Fl → Bool
  | Fl.val a, Fl.val b => decide (b < a)
  | _, _ => false

/-- `f32::partial_cmp`: `None` whenever one side is NaN. -/
def Fl.pcmp : Fl → Fl → Option Ordering
  | Fl.val a, Fl.val b => some (compare a b)
  | _, _ => none

/-- The rational carried by a non-NaN score (0 as a dummy for NaN; the
sort relation below is only ever applied to NaN-free lists). -/
def Fl.keyQ : Fl → ℚ
  | Fl.nan => 0
  | Fl.val q => q

/-- The comparator closure of `results.sort_by(|a, b| b.1.partial_cmp(&a.1).unwrap())`
in `deep_search`, before the `unwrap`: compares the second components in
reverse, `none` models the panic of `unwrap` on incomparable (NaN) scores. -/
def rustCmp (a b : ℕ × Fl) : Option Ordering :=
  Fl.pcmp b.2 a.2

/-- The comparator succeeds (never hits the `unwrap` panic) on every pair
drawn from `l`. -/
def sortOk (l : List (ℕ × Fl)) : Bool :=
  l.all fun a => l.all fun b => (rustCmp a b).isSome

/-- The total order realised by Rust's stable `sort_by` with the
descending-score comparator on an enumerated (index, score) list whose
indices are strictly increasing: descending by score, ties broken by
original index ascending (stability of the sort gives the tie-break). -/
def scoreRel (a b : ℕ × Fl) : Prop :=
  b.2.keyQ < a.2.keyQ ∨ (a.2.keyQ = b.2.keyQ ∧ a.1 ≤ b.1)

instance : DecidableRel scoreRel := fun a b =>
  inferInstanceAs (Decidable (_ ∨ _))

instance : IsTotal (ℕ × Fl) scoreRel where
  total a b := by
    rcases lt_trichotomy a.2.keyQ b.2.keyQ with h | h | h
    · exact Or.inr (Or.inl h)
    · rcases Nat.le_total a.1 b.1 with h1 | h1
      · exact Or.inl (Or.inr ⟨h, h1⟩)
      · exact Or.inr (Or.inr ⟨h.symm, h1⟩)
    · exact Or.inl (Or.inl h)

instance : IsTrans (ℕ × Fl) scoreRel where
  trans a b c hab hbc := by
    rcases hab with h1 | ⟨h1, h1i⟩ <;> rcases hbc with h2 | ⟨h2, h2i⟩
    · exact Or.inl (lt_trans h2 h1)
    · exact Or.inl (h2 ▸ h1)
    · exact Or.inl (lt_of_lt_of_le h2 (le_of_eq h1.symm))
    · exact Or.inr ⟨h1.trans h2, h1i.trans h2i⟩

/-! ## `deep_search` (src/pipeline/visual_vocab.rs, lines 386-443)

The sentence-embedding model is external (a remote pretrained network),
so the cosine-similarity scores of the contents are the oracle input
`sims` (one score per content string, in order).  The rest of the body is
translated directly: the empty-input early return, the
`enumerate().filter_map(score > threshold)` step, the stable sort with
the panicking comparator, and the `results[0..limit]` slice which panics
when `limit` exceeds the kept count. -/

/-- `similarities.iter().enumerate().filter_map(|x| if *x.1 > threshold ...)`. -/
def keptCandidates (sims : List Fl) (threshold : Fl) : List (ℕ × Fl) :=
  sims.enum.filter fun p => p.2.gtB threshold

/-- `deep_search(query, contents, limit, threshold)` given the similarity
scores `sims` of the contents.  `none` models a panic (comparator
`unwrap` on NaN, or the `results[0..limit]` slice out of range). -/
def deep_search (sims : List Fl) (limit : ℕ) (threshold : Fl) :
    Option (List (ℕ × Fl)) :=
  if sims.isEmpty then some []
  else
    let results := keptCandidates sims threshold
    if sortOk results then
      let sorted := List.insertionSort scoreRel results
      if limit = 0 then some sorted
      else if limit ≤ sorted.length then some (sorted.take limit)
      else none
    else none

/-! ## `cos_similarity` (src/pipeline/visual_vocab.rs, lines 445-455)

The Rust loop accumulates `dot_product`, `a_norm` (sum of squares) and
`b_norm` over `0..a.len()`, then returns
`dot_product / (a_norm * b_norm).sqrt()`.  The accumulated sums are exact
rationals here; the square root is handled in the theorems by
quantifying over any `den` with `den ^ 2 = a_norm * b_norm`. -/

/-- The `dot_product` accumulator of `cos_similarity` (indexing `b[i]`
with `i < a.len()`; out-of-range reads, which panic in Rust, are modelled
by the 0 default and excluded by the equal-length hypotheses of the
theorems). -/
def listDot (a b : List ℚ) : ℚ :=
  ∑ i in Finset.range a.length, a.getD i 0 * b.getD i 0

/-! ## `textify` (src/spider/spanish_dict.rs, lines 274-283)

`element.text().collect::<Vec<_>>().join("")` followed by `.trim()`,
`.trim_end_matches(')')`, `.trim_start_matches('(')`.  The element's
text nodes are the input list. -/

/-- `str::trim`: remove leading and trailing whitespace characters. -/
def trimChars (s : List Char) : List Char :=
  ((s.dropWhile Char.isWhitespace).reverse.dropWhile Char.isWhitespace).reverse

/-- `trim_end_matches(c)`: remove every trailing occurrence of `c`. -/
def dropTrailingChars (c : Char) (s : List Char) : List Char :=
  (s.reverse.dropWhile (· = c)).reverse

/-- `trim_start_matches(c)`: remove every leading occurrence of `c`. -/
def dropLeadingChars (c : Char) (s : List Char) : List Char :=
  s.dropWhile (· = c)

/-- `textify`: concatenate the text nodes (`join("")`, here at character
level), trim surrounding whitespace, strip all trailing `)` then all
leading `(`. -/
def textify (nodes : List String) : String :=
  ⟨dropLeadingChars '(' (dropTrailingChars ')' (trimChars (nodes.flatMap String.data)))⟩

/-! ## Dictionary data model (src/spider/spanish_dict.rs, lines 13-47) -/

inductive DictionaryExample where
  | Example (text : String)
  | ExampleAndTranslation (text translation : String)
deriving DecidableEq, Repr

inductive DictionaryDefinition where
  | Definition (definition : String)
  | DefinitionAndGroup (group definition : String)
  | DefinitionAndGroupWithExample
      (group definition : String) (examples : List DictionaryExample)
deriving DecidableEq, Repr

structure DictionaryEntry where
  word : String
  definitions : List DictionaryDefinition
deriving DecidableEq, Repr

/-! ## Image spider (src/spider/google_image.rs)

Transport responses are opaque handles (`ℕ`); the send / body oracles
return `Except` outcomes. -/

/-- `Image::get_bytes` (lines 40-48): nested `if let Ok(..)` with a
fall-through `Err("should have received bytes")`.  Never panics; both
transport failures surface as the `Err` value. -/
def get_bytes_m (send : Except String ℕ) (bytes : ℕ → Except String (List ℕ)) :
    Except String (List ℕ) :=
  match send with
  | .ok resp =>
    match bytes resp with
    | .ok b => .ok b
    | .error _ => .error "should have received bytes"
  | .error _ => .error "should have received bytes"

/-- `image_search` (lines 118-156): the transport steps are followed by
`.unwrap()` (panic on failure, modelled `none`), and the script-locating
/ json5 / index-walking steps (`expect`, `unwrap`, external parser) are
the oracle `parsePage`, whose `none` is likewise a panic.  The function
never constructs an `Err` itself. -/
def image_search_m {α : Type} (send : Except String ℕ)
    (text : ℕ → Except String String) (parsePage : String → Option (List α)) :
    Option (Except String (List α)) :=
  match send with
  | .error _ => none
  | .ok resp =>
    match text resp with
    | .error _ => none
    | .ok body =>
      match parsePage body with
      | none => none
      | some imgs => some (Except.ok imgs)

/-- The `while offset < max` loop of `image_search_max` (lines 162-171):
`pages offset` is the `image_search(query, offset)` call; an `Err` is
propagated by `?`, an empty page breaks, otherwise the offset advances by
the number of results returned and the results are appended. -/
def searchLoop {α : Type} (pages : ℕ → Except String (List α)) (mx : ℕ)
    (offset : ℕ) (acc : List α) : Except String (List α) :=
  if offset < mx then
    match pages offset with
    | .error e => .error e
    | .ok new =>
      if h : new.isEmpty then .ok acc
      else searchLoop pages mx (offset + new.length) (acc ++ new)
  else .ok acc
termination_by mx - offset
decreasing_by
  simp_wf
  have hn : new ≠ [] := by
    intro hnil
    simp [hnil] at h
  have : 0 < new.length := List.length_pos.mpr hn
  omega

/-- `image_search_max` (lines 161-176): run the loop from offset 0, then
`truncate(max)` when the accumulated list overshoots. -/
def image_search_max_m {α : Type} (pages : ℕ → Except String (List α))
    (mx : ℕ) : Except String (List α) :=
  match searchLoop pages mx 0 [] with
  | .error e => .error e
  | .ok images => .ok (if mx < images.length then images.take mx else images)

/-! ## Dictionary spider (src/spider/spanish_dict.rs)

The scraper selector engine is external; the result of each selector
query appearing in `search_vocab_inner` is an oracle field of the block
structures below.  `Option.none` in such a field means "no match", on
which the Rust code calls `.unwrap()` and panics.  Text-bearing fields
hold the element's raw text nodes, the input of `textify`. -/

/-- The document-wide results of the three `get_text_from_selector`
queries made inside the neodict loop.  `as_dom` (lines 264-271) wraps
the *entire document tree*, not the definition block, so `a[lang=en]`,
`span[lang=es]` and `span[lang=en]` are searched over the whole page
and yield the same first match for every definition block of the page;
`none` means the selector has no match anywhere on the page, on which
`get_text_from_selector`'s `.next().unwrap()` panics. -/
structure PageSelectors where
  aEn : Option (List String)
  spanEs : Option (List String)
  spanEn : Option (List String)
deriving DecidableEq, Repr

/-- A neodict group header matched by `div[lang] div[lang^=en]`:
`nextSiblingChildren` is the number of child nodes of the header's next
sibling (`none` = the header has no next sibling, so
`next_sibling().unwrap()` panics); `lastChildSpan` is the group-scoped
`group.select("span:last-child")` first match. -/
structure NeodictGroup where
  nextSiblingChildren : Option ℕ
  lastChildSpan : Option (List String)
deriving DecidableEq, Repr

/-- Lines 151-169, one iteration of the inner definition loop: the
three document-wide text queries and the group's `span:last-child`
query all panic on a missing match; otherwise the iteration yields
`DefinitionAndGroupWithExample` with a single `ExampleAndTranslation`.
The definition node itself is never consulted (the queries run over the
whole document), so every child of the sibling produces the same
record. -/
def processNeodictDef (ps : PageSelectors) (g : NeodictGroup) :
    Option DictionaryDefinition :=
  match ps.aEn, ps.spanEs, ps.spanEn, g.lastChildSpan with
  | some dt, some ex, some tr, some gt =>
    some (DictionaryDefinition.DefinitionAndGroupWithExample (textify gt)
      (textify dt)
      [DictionaryExample.ExampleAndTranslation (textify ex) (textify tr)])
  | _, _, _, _ => none

/-- Process the elements of a list in order, aborting on the first
panic (`none`): the effect of a Rust `for` loop whose body can panic. -/
def optionTraverse {α β : Type} (f : α → Option β) : List α → Option (List β)
  | [] => some []
  | a :: l =>
    match f a with
    | none => none
    | some b => (optionTraverse f l).map fun bs => b :: bs

/-- Lines 150-170: `group.next_sibling().unwrap()` (panic when absent),
then one loop iteration per child of the sibling; a panic in any
iteration aborts. -/
def processNeodictGroup (ps : PageSelectors) (g : NeodictGroup) :
    Option (List DictionaryDefinition) :=
  match g.nextSiblingChildren with
  | none => none
  | some k => optionTraverse (fun _ => processNeodictDef ps g) (List.range k)

/-- A child node of the example container in a neoharrap block: an
element child carries the text nodes of each of its element children
(the rows read at positions 0 and 2), a non-element node carries
nothing (filtered out by `ElementRef::wrap`). -/
inductive HtmlChild where
  | elem (grandchildren : List (List String))
  | other
deriving DecidableEq, Repr

/-- One element of the neoharrap `intermediate` list (an element child of
the group's 2nd child's first child). -/
structure NeoharrapContent where
  textNodes : List String
  childNodes : List HtmlChild
deriving DecidableEq, Repr

/-- A neoharrap group block matched by
`#dictionary-neoharrap-es > div > div > div:nth-child(2) > div`.
`contentChildren` is the element-filtered
`children().nth(1).unwrap().first_child().unwrap().children()` list
(`none` = one of the two unwraps panicked); `groupLabel` is
`first_child().unwrap().children().nth(2).unwrap()` (`none` = panic). -/
structure NeoharrapGroup where
  contentChildren : Option (List NeoharrapContent)
  groupLabel : Option (List String)
deriving DecidableEq, Repr

/-- Lines 178-250: definition text is the middle of exactly 3 content
children (empty string on any other count); the example container is
`intermediate[intermediate.len() - 1]`, which panics when the content
list is empty; a container with no child nodes is skipped (`continue`,
the inner `some none`); example rows keep only element children with
exactly 3 element children of their own. -/
def processNeoharrapGroup (g : NeoharrapGroup) :
    Option (Option DictionaryDefinition) :=
  match g.contentChildren with
  | none => none
  | some intermediate =>
    let defText := if intermediate.length = 3
      then textify (((intermediate.get? 1).map (·.textNodes)).getD [])
      else ""
    match g.groupLabel with
    | none => none
    | some gl =>
      let groupText := textify gl
      match intermediate.getLast? with
      | none => none
      | some exampleNode =>
        if exampleNode.childNodes.isEmpty then some none
        else
          let result := exampleNode.childNodes.filterMap fun c =>
            match c with
            | HtmlChild.elem gcs =>
              if gcs.length = 3 then
                some (DictionaryExample.ExampleAndTranslation
                  (textify (gcs.getD 0 [])) (textify (gcs.getD 2 [])))
              else none
            | HtmlChild.other => none
          if result.isEmpty then
            some (some (DictionaryDefinition.DefinitionAndGroup groupText defText))
          else
            some (some (DictionaryDefinition.DefinitionAndGroupWithExample
              groupText defText result))

/-- A dictionary section container matched by
`#main-container-video div[id^=dictionary]`, dispatched on its id.  A
neodict section carries the document-wide selector results of its page
(a function of the fetched body, constant across the page's blocks). -/
inductive DictSection where
  | neodict (ps : PageSelectors) (groups : List NeodictGroup)
  | neoharrap (groups : List NeoharrapGroup)
  | unknown (id : String)
deriving DecidableEq, Repr

/-- The per-section arm of the `match id` in `search_vocab_inner`:
unknown ids are logged and ignored; definitions accumulate in order. -/
def processSection : DictSection → Option (List DictionaryDefinition)
  | DictSection.neodict ps gs =>
    (optionTraverse (processNeodictGroup ps) gs).map List.flatten
  | DictSection.neoharrap gs =>
    (optionTraverse processNeoharrapGroup gs).map (·.filterMap id)
  | DictSection.unknown _ => some []

/-- `search_vocab_inner` (lines 124-261): the two transport steps use
`.expect(..)` (panic, `none`); `Html::parse_document` is total, so the
page structure oracle `parseSections` is a total function; every section
is processed in order and the entry is always `Ok` — the function has no
`Err` path of its own. -/
def search_vocab_inner_m (word : String) (send : Except String ℕ)
    (text : ℕ → Except String String)
    (parseSections : String → List DictSection) :
    Option (Except String DictionaryEntry) :=
  match send with
  | .error _ => none
  | .ok resp =>
    match text resp with
    | .error _ => none
    | .ok body =>
      match optionTraverse processSection (parseSections body) with
      | none => none
      | some defss =>
        some (Except.ok { word := word, definitions := defss.flatten })

/-! ## `search_vocab` (src/spider/spanish_dict.rs, lines 57-122)

The two loops are attempt-indexed; `inner i` is the outcome of the
`i`-th `search_vocab_inner` call performed by this `search_vocab`
invocation (`none` = that call panicked), `predict j` is the outcome of
the `j`-th `model.predict(&[word])` call (a list of keyword lists, one
per input; `Err` is propagated by `?`). -/

/-- The first `for _ in 0..2` loop: return the first `Ok` entry with a
non-empty definition list, log-and-retry on `Err` or an empty list.
Result `some none` = attempts exhausted. -/
def directLoop (inner : ℕ → Option (Except String DictionaryEntry)) :
    ℕ → ℕ → Option (Option DictionaryEntry)
  | _, 0 => some none
  | i, Nat.succ n =>
    match inner i with
    | none => none
    | some (.ok e) =>
      if e.definitions.isEmpty then directLoop inner (i + 1) n
      else some (some e)
    | some (.error _) => directLoop inner (i + 1) n

/-- The second `for _ in 0..2` loop: predict keywords (propagating a
model `Err`), skip the attempt when no keyword list or no keyword is
present, otherwise look the keyword up; return the first non-empty
entry.  `some (.ok none)` = attempts exhausted. -/
def fallbackLoop (inner : ℕ → String → Option (Except String DictionaryEntry))
    (predict : ℕ → Except String (List (List String))) :
    ℕ → ℕ → Option (Except String (Option DictionaryEntry))
  | _, 0 => some (Except.ok none)
  | j, Nat.succ n =>
    match predict j with
    | .error e => some (Except.error e)
    | .ok pred =>
      match pred.head? with
      | none => fallbackLoop inner predict (j + 1) n
      | some kws =>
        match kws.head? with
        | none => fallbackLoop inner predict (j + 1) n
        | some kw =>
          match inner j kw with
          | none => none
          | some (.ok e) =>
            if e.definitions.isEmpty then fallbackLoop inner predict (j + 1) n
            else some (Except.ok (some e))
          | some (.error _) => fallbackLoop inner predict (j + 1) n

/-- `search_vocab`: two direct attempts, then two keyword-fallback
attempts, then `Err(SpiderError("failed to search for word: .."))`. -/
def search_vocab_m (word : String)
    (inner : ℕ → String → Option (Except String DictionaryEntry))
    (predict : ℕ → Except String (List (List String))) :
    Option (Except String DictionaryEntry) :=
  match directLoop (fun i => inner i word) 0 2 with
  | none => none
  | some (some e) => some (Except.ok e)
  | some none =>
    match fallbackLoop inner predict 2 2 with
    | none => none
    | some (.error e) => some (Except.error e)
    | some (.ok (some e)) => some (Except.ok e)
    | some (.ok none) =>
      some (Except.error ("failed to search for word: " ++ word))

/-! ## Enrichment orchestrator (src/pipeline/visual_vocab.rs) -/

/-- `Flashcard` (src/pipeline/flashcard.rs, lines 11-14). -/
structure Flashcard where
  word : String
  definition : String
deriving DecidableEq, Repr

/-- A decoded `DynamicImage`, reduced to its dimensions. -/
structure DynImage where
  width : ℕ
  height : ℕ
deriving DecidableEq, Repr

/-- `VisualFlashCard` (src/pipeline/visual_vocab.rs, lines 47-52). -/
structure VisualFlashCard where
  word : String
  definition : String
  image : DynImage
  «example» : String
deriving DecidableEq, Repr

/-- `VisualFlashCard::default` (lines 146-153): empty strings and a
1x1 RGB image. -/
def VisualFlashCard.default : VisualFlashCard :=
  { word := "", definition := "", image := { width := 1, height := 1 },
    «example» := "" }

/-- The `match` inside the example `flat_map` (lines 347-353). -/
def exampleText : DictionaryExample → String
  | DictionaryExample.Example t => t
  | DictionaryExample.ExampleAndTranslation t _ => t

/-- The `matches!(x, DefinitionAndGroupWithExample { .. })` filter. -/
def isDGWE : DictionaryDefinition → Bool
  | DictionaryDefinition.DefinitionAndGroupWithExample .. => true
  | _ => false

/-- Lines 327-360: collect `(format!("{} ({})", definition, group),
example)` pairs from all definitions that carry examples, in order. -/
def collectExamples (defs : List DictionaryDefinition) :
    List (String × String) :=
  (defs.filter isDGWE).flatMap fun d =>
    match d with
    | DictionaryDefinition.DefinitionAndGroupWithExample g df exs =>
      exs.map fun x => (df ++ " (" ++ g ++ ")", exampleText x)
    | _ => []

/-- The external effects of one enrichment task.  `imgSearch` is the
`image_search_max(word, 10)` outcome (its inner `image_search` calls can
panic, hence the `Option` layer); `dict` is the `search_vocab(word)`
outcome; `pick w k` is the `k`-th `random::<usize>()` drawn inside the
image loop of the task for `w`; `score w c` is the embedding-model
cosine similarity of content `c` against query `w`.  `download c` is the
`img.full.get_image()` outcome for candidate `c`.  Modelled from the
spec: `get_image` (not defined under src/) downloads the full-resolution
bytes of the candidate and decodes them, failing with an error on
transport or decode failure (spec section 4.5 step 5 and section 6). -/
structure EnrichEnv where
  imgSearch : String → Option (Except String (List ℕ))
  dict : String → Option (Except String DictionaryEntry)
  download : ℕ → Except String DynImage
  pick : String → ℕ → ℕ
  score : String → String → Fl

/-- The `loop` of lines 308-318: draw a random index, `remove` that
candidate, try to download it; break on the first success.  When the
candidate list is empty the Rust code evaluates
`random::<usize>() % images.len()` with `images.len() == 0` and panics
(`none`); the `break Some(img)` is the only exit, so the `None => Err`
arm at lines 321-323 is unreachable. -/
def imageLoopGo (env : EnrichEnv) (word : String) :
    ℕ → ℕ → List ℕ → Option DynImage
  | 0, _, _ => none
  | Nat.succ fuel, k, images =>
    if images.isEmpty then none
    else
      let i := env.pick word k % images.length
      match env.download (images.getD i 0) with
      | .ok img => some img
      | .error _ => imageLoopGo env word fuel (k + 1) (images.eraseIdx i)

/-- Entry point of the loop: one removal per iteration, so the list
length is an exact fuel bound (each recursive call erases one element,
and the fuel-exhausted case coincides with the empty-list panic). -/
def imageLoop (env : EnrichEnv) (word : String) (k : ℕ) (images : List ℕ) :
    Option DynImage :=
  imageLoopGo env word images.length k images

/-- `create_visual_vocab` (lines 293-375): image search, dictionary
lookup (both `Err`s mapped into `PipelineError`s by `?`), the image
pick loop, example collection, and the `deep_search(word, defs, 1, 0.0)`
rerank; `rank[0]` and `examples[rank[0].0]` panic when out of range. -/
def create_visual_vocab_m (env : EnrichEnv) (v : Flashcard) :
    Option (Except String VisualFlashCard) :=
  match env.imgSearch v.word with
  | none => none
  | some (.error e) => some (Except.error ("Error getting images: " ++ e))
  | some (.ok images) =>
    match env.dict v.word with
    | none => none
    | some (.error e) =>
      some (Except.error ("Error searching for definition: " ++ e))
    | some (.ok entry) =>
      match imageLoop env v.word 0 images with
      | none => none
      | some img =>
        let examples := collectExamples entry.definitions
        let contents := examples.map Prod.fst
        match deep_search (contents.map (env.score v.word)) 1 (Fl.val 0) with
        | none => none
        | some rank =>
          match rank.head? with
          | none => none
          | some r =>
            if h : r.1 < examples.length then
              some (Except.ok
                { word := v.word, definition := v.definition, image := img,
                  «example» := (examples.get ⟨r.1, h⟩).2 })
            else none

/-- The body of one spawned task in `create_visual_vocabs`
(lines 274-282): `Ok` yields the card, `Err` is logged and replaced by
`VisualFlashCard::default()`; a panic poisons the task, whose
`JoinError` is then silently dropped by `.filter_map(|res| res.ok())`
(line 287), modelled by `none`. -/
def taskOutcome (env : EnrichEnv) (v : Flashcard) : Option VisualFlashCard :=
  match create_visual_vocab_m env v with
  | some (.ok c) => some c
  | some (.error _) => some VisualFlashCard.default
  | none => none

/-- `create_visual_vocabs` (lines 267-290): fan out one task per input,
join in input order, drop the tasks whose join failed. -/
def create_visual_vocabs_m (env : EnrichEnv) (vocabs : List Flashcard) :
    List VisualFlashCard :=
  vocabs.filterMap (taskOutcome env)

/-! # Verification

Shared helper lemmas first, then one theorem per specification claim. -/

/-- The element surviving at the head of a `dropWhile` fails the
predicate. -/
theorem head?_dropWhile_false {α : Type} (p : α → Bool) :
    ∀ (l : List α) (c : α), (l.dropWhile p).head? = some c → p c = false := by
  intro l
  induction l with
  | nil =>
    intro c h
    simp [List.dropWhile] at h
  | cons a t ih =>
    intro c h
    rw [List.dropWhile_cons] at h
    by_cases hp : p a
    · rw [if_pos hp] at h
      exact ih c h
    · rw [if_neg hp] at h
      simp only [List.head?_cons, Option.some.injEq] at h
      subst h
      exact Bool.eq_false_iff.mpr hp

/-- `textify` output never starts with `(`. -/
theorem textify_head_ne (nodes : List String) (c : Char)
    (h : (textify nodes).data.head? = some c) : c ≠ '(' := by
  have hb := head?_dropWhile_false (· = '(')
    (dropTrailingChars ')' (trimChars (nodes.flatMap String.data))) c h
  simpa using hb

/-- `textify` output never ends with `)`. -/
theorem textify_getLast_ne (nodes : List String) (c : Char)
    (h : (textify nodes).data.getLast? = some c) : c ≠ ')' := by
  obtain ⟨t, ht⟩ : (textify nodes).data <:+
      dropTrailingChars ')' (trimChars (nodes.flatMap String.data)) :=
    List.dropWhile_suffix _
  have hXlast : (dropTrailingChars ')'
      (trimChars (nodes.flatMap String.data))).getLast? = some c := by
    rw [← ht, List.getLast?_append, h]
    rfl
  unfold dropTrailingChars at hXlast
  rw [List.getLast?_reverse] at hXlast
  have hb := head?_dropWhile_false (· = ')') _ c hXlast
  simpa using hb

/-- Claim C10. Every text field the dictionary extractor emits goes
through `textify`: the concatenation of the element's text nodes is
trimmed of surrounding whitespace, then stripped of all trailing `)`,
then of all leading `(`; a group label rendered `(noun)` comes out as
`noun`, and no emitted string begins with `(` or ends with `)`. -/
theorem c10_textify_normalized :
    textify ["(noun)"] = "noun" ∧
    ∀ nodes : List String,
      (∀ c, (textify nodes).data.head? = some c → c ≠ '(') ∧
      (∀ c, (textify nodes).data.getLast? = some c → c ≠ ')') := by
  refine ⟨by decide, fun nodes => ⟨textify_head_ne nodes, textify_getLast_ne nodes⟩⟩

/-- Witness for C10: at the concrete input `[" ((hola)) "]` the
normalised text is `hola`, whose first character is `h` and last is
`a`, discharging the hypotheses of the theorem. -/
theorem c10_textify_normalized_witness :
    ('h' : Char) ≠ '(' ∧ ('a' : Char) ≠ ')' :=
  ⟨(c10_textify_normalized.2 [" ((hola)) "]).1 'h' (by decide),
   (c10_textify_normalized.2 [" ((hola)) "]).2 'a' (by decide)⟩

/-- Claim C8 (amended). A transport failure (of the HTTP send or of the
body retrieval) makes `image_search` and `search_vocab_inner` panic via
`unwrap`/`expect` instead of returning an error value; only
`Image::get_bytes` propagates a transport failure to its caller as an
`Err` value. -/
theorem c8_transport_error_behaviour :
    (∀ (α : Type) (e : String) (text : ℕ → Except String String)
        (parsePage : String → Option (List α)),
        image_search_m (Except.error e) text parsePage = none) ∧
    (∀ (α : Type) (resp : ℕ) (e : String)
        (parsePage : String → Option (List α)),
        image_search_m (α := α) (Except.ok resp) (fun _ => Except.error e)
          parsePage = none) ∧
    (∀ (w e : String) (text : ℕ → Except String String)
        (parseSections : String → List DictSection),
        search_vocab_inner_m w (Except.error e) text parseSections = none) ∧
    (∀ (w e : String) (resp : ℕ)
        (parseSections : String → List DictSection),
        search_vocab_inner_m w (Except.ok resp) (fun _ => Except.error e)
          parseSections = none) ∧
    (∀ (e : String) (bytes : ℕ → Except String (List ℕ)),
        get_bytes_m (Except.error e) bytes =
          Except.error "should have received bytes") ∧
    (∀ (resp : ℕ) (e : String),
        get_bytes_m (Except.ok resp) (fun _ => Except.error e) =
          Except.error "should have received bytes") :=
  ⟨fun _ _ _ _ => rfl, fun _ _ _ _ => rfl, fun _ _ _ _ => rfl,
   fun _ _ _ _ => rfl, fun _ _ => rfl, fun _ _ => rfl⟩

/-- Claim C8 counterexample. At the concrete transport failure
`"connection reset"`, `image_search` and `search_vocab_inner` panic
(`none`, the `unwrap`/`expect` path) instead of returning the error
value the claim promises to the caller. -/
theorem c8_transport_error_counterexample :
    image_search_m (α := ℕ) (Except.error "connection reset")
        (fun _ => Except.ok "") (fun _ => some []) = none ∧
    search_vocab_inner_m "luz" (Except.error "connection reset")
        (fun _ => Except.ok "") (fun _ => []) = none :=
  ⟨rfl, rfl⟩

/-- Loop invariant of `searchLoop`: an `Ok` result either reached the
target count (it grew by at least `mx - offset` over the accumulator) or
some page below the target came back empty. -/
theorem searchLoop_ok_length {α : Type} (pages : ℕ → Except String (List α))
    (mx : ℕ) (offset : ℕ) (acc l : List α)
    (h : searchLoop pages mx offset acc = Except.ok l) :
    acc.length + (mx - offset) ≤ l.length ∨
      ∃ o, o < mx ∧ pages o = Except.ok [] := by
  induction offset, acc using searchLoop.induct pages mx with
  | case1 offset acc hlt e hp =>
    rw [searchLoop, if_pos hlt, hp] at h
    exact absurd h (by simp)
  | case2 offset acc hlt new hp hemp =>
    right
    have hnil : new = [] := List.isEmpty_iff.mp hemp
    rw [hnil] at hp
    exact ⟨offset, hlt, hp⟩
  | case3 offset acc hlt new hp hemp ih =>
    rw [searchLoop, if_pos hlt, hp] at h
    simp only [hemp, dite_false] at h
    rcases ih h with h1 | h1
    · left
      simp only [List.length_append] at h1
      omega
    · right
      exact h1
  | case4 offset acc hge =>
    rw [searchLoop, if_neg hge] at h
    left
    simp only [Except.ok.injEq] at h
    subst h
    omega

/-- Claim C6. `image_search_max` never returns more than `max` candidates;
an `Ok` result shorter than `max` means some page below `max` came back
empty (exhaustion) — a failing search call instead propagates its error;
the offset of the next search call advances by exactly the number of
results the previous call returned; and an accumulated list that reaches
or overshoots `max` is truncated to exactly `max` elements. -/
theorem c6_image_search_max_bounds (α : Type)
    (pages : ℕ → Except String (List α)) (mx : ℕ) :
    (∀ l, image_search_max_m pages mx = Except.ok l → l.length ≤ mx) ∧
    (∀ l, image_search_max_m pages mx = Except.ok l → l.length < mx →
      ∃ o, o < mx ∧ pages o = Except.ok []) ∧
    (∀ offset acc new, offset < mx → pages offset = Except.ok new →
      new ≠ [] →
      searchLoop pages mx offset acc =
        searchLoop pages mx (offset + new.length) (acc ++ new)) ∧
    (∀ u, searchLoop pages mx 0 [] = Except.ok u → mx ≤ u.length →
      image_search_max_m pages mx = Except.ok (u.take mx) ∧
      (u.take mx).length = mx) := by
  refine ⟨?_, ?_, ?_, ?_⟩
  · intro l h
    unfold image_search_max_m at h
    cases hu : searchLoop pages mx 0 [] with
    | error e =>
      rw [hu] at h
      exact absurd h (by simp)
    | ok u =>
      rw [hu] at h
      simp only [Except.ok.injEq] at h
      subst h
      split
      · simp [List.length_take]
      · next hnotlt => exact Nat.le_of_not_lt hnotlt
  · intro l h hlen
    unfold image_search_max_m at h
    cases hu : searchLoop pages mx 0 [] with
    | error e =>
      rw [hu] at h
      exact absurd h (by simp)
    | ok u =>
      rw [hu] at h
      simp only [Except.ok.injEq] at h
      subst h
      rcases searchLoop_ok_length pages mx 0 [] u hu with h1 | h1
      · simp only [List.length_nil, Nat.zero_add, Nat.sub_zero] at h1
        split at hlen
        · simp [List.length_take] at hlen
          omega
        · omega
      · exact h1
  · intro offset acc new hlt hp hne
    conv_lhs => rw [searchLoop]
    rw [if_pos hlt, hp]
    have hemp : new.isEmpty = false := by
      simp [List.isEmpty_iff, hne]
    simp [hemp]
  · intro u hu hge
    have hcase : image_search_max_m pages mx =
        Except.ok (if mx < u.length then u.take mx else u) := by
      unfold image_search_max_m
      rw [hu]
    constructor
    · rw [hcase]
      split
      · rfl
      · next hnl =>
        have hlen : u.length = mx :=
          Nat.le_antisymm (Nat.le_of_not_lt hnl) hge
        rw [← hlen, List.take_length]
    · simp only [List.length_take]
      omega

/-- Oracle for the C6 witness: offset 0 yields two results, every later
offset is exhausted. -/
def c6Pages : ℕ → Except String (List ℕ) := fun o =>
  Except.ok (if o = 0 then [7, 8] else [])

/-- Witness for C6: with `c6Pages` and `max = 5` the search returns the
two available candidates (fewer than 5), and the theorem yields the
exhausted page. -/
theorem c6_image_search_max_bounds_witness :
    ∃ o, o < 5 ∧ c6Pages o = Except.ok [] :=
  (c6_image_search_max_bounds ℕ c6Pages 5).2.1 [7, 8]
    (by simp [image_search_max_m, searchLoop, c6Pages])
    (by norm_num)

/-- A score that passed the `> threshold` filter is a non-NaN value
strictly above a non-NaN threshold. -/
theorem gtB_val_cases (x th : Fl) (h : Fl.gtB x th = true) :
    ∃ q t : ℚ, x = Fl.val q ∧ th = Fl.val t ∧ t < q := by
  cases x with
  | nan => simp [Fl.gtB] at h
  | val q =>
    cases th with
    | nan => simp [Fl.gtB] at h
    | val t => exact ⟨q, t, rfl, rfl, by simpa [Fl.gtB] using h⟩

/-- Members of the filtered candidate list passed the score filter. -/
theorem mem_kept_gtB (sims : List Fl) (threshold : Fl) (p : ℕ × Fl)
    (hp : p ∈ keptCandidates sims threshold) : Fl.gtB p.2 threshold = true :=
  (List.mem_filter.mp hp).2

/-- The filter removes every NaN, so the panicking comparator succeeds
on every pair of filtered candidates. -/
theorem sortOk_keptCandidates (sims : List Fl) (threshold : Fl) :
    sortOk (keptCandidates sims threshold) = true := by
  unfold sortOk
  rw [List.all_eq_true]
  intro a ha
  rw [List.all_eq_true]
  intro b hb
  obtain ⟨qa, ta, hqa, -, -⟩ := gtB_val_cases _ _ (mem_kept_gtB _ _ _ ha)
  obtain ⟨qb, tb, hqb, -, -⟩ := gtB_val_cases _ _ (mem_kept_gtB _ _ _ hb)
  simp [rustCmp, hqa, hqb, Fl.pcmp]

/-- Claim C2 (amended). For `threshold = -1`: with `limit = 0`,
`deep_search` returns all kept candidates (those with score strictly
above `-1`; a score of exactly `-1` or NaN is dropped) in sorted order;
with `0 < limit ≤ #kept` it returns exactly `limit` items; with
`limit > #kept` the slice `results[0..limit]` panics instead of
returning `min(limit, |candidates|)` items.  Every kept score is a
non-NaN value strictly greater than `-1`, and any true cosine score is
bounded by 1 in absolute value (Cauchy-Schwarz for the accumulated
sums of `cos_similarity`, stated for any `den` with
`den² = a_norm · b_norm`). -/
theorem c2_deep_search_threshold_neg_one (sims : List Fl) (limit : ℕ) :
    (sims ≠ [] →
      deep_search sims 0 (Fl.val (-1)) =
        some (List.insertionSort scoreRel (keptCandidates sims (Fl.val (-1)))) ∧
      (List.insertionSort scoreRel (keptCandidates sims (Fl.val (-1)))).length =
        (keptCandidates sims (Fl.val (-1))).length) ∧
    (sims ≠ [] → 0 < limit →
      limit ≤ (keptCandidates sims (Fl.val (-1))).length →
      ∃ l, deep_search sims limit (Fl.val (-1)) = some l ∧
        l.length = limit) ∧
    (sims ≠ [] → (keptCandidates sims (Fl.val (-1))).length < limit →
      deep_search sims limit (Fl.val (-1)) = none) ∧
    (∀ p ∈ keptCandidates sims (Fl.val (-1)),
      ∃ q : ℚ, p.2 = Fl.val q ∧ -1 < q) ∧
    (∀ (a b : List ℚ) (den : ℚ), b.length = a.length →
      den ^ 2 = listDot a a * listDot b b → 0 < den →
      |listDot a b / den| ≤ 1) := by
  have hsort := sortOk_keptCandidates sims (Fl.val (-1))
  have hlen : (List.insertionSort scoreRel
      (keptCandidates sims (Fl.val (-1)))).length =
      (keptCandidates sims (Fl.val (-1))).length :=
    (List.perm_insertionSort scoreRel _).length_eq
  refine ⟨?_, ?_, ?_, ?_, ?_⟩
  · intro hne
    exact ⟨by simp [deep_search, List.isEmpty_iff, hne, hsort], hlen⟩
  · intro hne hpos hle
    have hlim0 : limit ≠ 0 := Nat.pos_iff_ne_zero.mp hpos
    have hle' : limit ≤ (List.insertionSort scoreRel
        (keptCandidates sims (Fl.val (-1)))).length := by
      rw [hlen]
      exact hle
    refine ⟨(List.insertionSort scoreRel
      (keptCandidates sims (Fl.val (-1)))).take limit, ?_, ?_⟩
    · simp [deep_search, List.isEmpty_iff, hne, hsort, hlim0, hle', hle]
    · rw [List.length_take]
      omega
  · intro hne hgt
    have hlim0 : limit ≠ 0 := by omega
    have hnle : ¬ limit ≤ (keptCandidates sims (Fl.val (-1))).length :=
      Nat.not_le.mpr hgt
    simp [deep_search, List.isEmpty_iff, hne, hsort, hlim0, hnle]
  · intro p hp
    obtain ⟨q, t, hq, ht, hlt⟩ :=
      gtB_val_cases _ _ (mem_kept_gtB sims (Fl.val (-1)) p hp)
    injection ht with ht'
    subst ht'
    exact ⟨q, hq, hlt⟩
  · intro a b den hab hden hpos
    have CS := Finset.sum_mul_sq_le_sq_mul_sq (Finset.range a.length)
      (fun i => a.getD i 0) (fun i => b.getD i 0)
    have key : listDot a b ^ 2 ≤ listDot a a * listDot b b := by
      unfold listDot
      rw [hab]
      calc (∑ i in Finset.range a.length, a.getD i 0 * b.getD i 0) ^ 2
          ≤ (∑ i in Finset.range a.length, a.getD i 0 ^ 2) *
            (∑ i in Finset.range a.length, b.getD i 0 ^ 2) := CS
        _ = (∑ i in Finset.range a.length, a.getD i 0 * a.getD i 0) *
            (∑ i in Finset.range a.length, b.getD i 0 * b.getD i 0) := by
            simp [pow_two]
    have habs : |listDot a b| ≤ den := by
      nlinarith [sq_abs (listDot a b), abs_nonneg (listDot a b)]
    rw [abs_div, abs_of_pos hpos]
    exact div_le_one_of_le₀ habs (le_of_lt hpos)

/-- Witness for C2: two candidates with scores `1` and `-2`; with
`limit = 1` the reranker returns one item, with `limit = 3 > #kept = 1`
it panics, and the trivial one-dimensional cosine is bounded by 1. -/
theorem c2_deep_search_threshold_neg_one_witness :
    (∃ l, deep_search [Fl.val 1, Fl.val (-2)] 1 (Fl.val (-1)) = some l ∧
      l.length = 1) ∧
    deep_search [Fl.val 1, Fl.val (-2)] 3 (Fl.val (-1)) = none ∧
    |listDot [1] [1] / 1| ≤ 1 :=
  ⟨(c2_deep_search_threshold_neg_one [Fl.val 1, Fl.val (-2)] 1).2.1
      (by decide) (by decide) (by decide),
   (c2_deep_search_threshold_neg_one [Fl.val 1, Fl.val (-2)] 3).2.2.1
      (by decide) (by decide),
   (c2_deep_search_threshold_neg_one [] 0).2.2.2.2 [1] [1] 1 rfl
      (by simp [listDot]) one_pos⟩

/-- Claim C2 counterexample. One candidate with score `1` and `limit = 2`:
the claim promises `min(2, 1) = 1` ranked items without error, but the
slice `results[0..2]` is out of range and the call panics. -/
theorem c2_deep_search_limit_overrun_counterexample :
    deep_search [Fl.val 1] 2 (Fl.val (-1)) = none := by decide

/-- Indices in an enumerated list are strictly increasing. -/
theorem enum_pairwise_fst_lt {α : Type} (l : List α) :
    List.Pairwise (fun a b : ℕ × α => a.1 < b.1) l.enum := by
  rw [List.pairwise_iff_get]
  intro i j hij
  simp only [List.get_eq_getElem, List.getElem_enum]
  simpa using hij

/-- The filtered candidate list keeps its indices strictly increasing
(filtering a sublist preserves pairwise relations). -/
theorem kept_pairwise_fst_lt (sims : List Fl) (threshold : Fl) :
    List.Pairwise (fun a b : ℕ × Fl => a.1 < b.1)
      (keptCandidates sims threshold) :=
  List.Pairwise.sublist (List.filter_sublist _) (enum_pairwise_fst_lt sims)

/-- Claim C4 (amended). The sort of the filtered (index, score) pairs
orders them by `scoreRel` — descending score with ties broken by
ascending original index (the filtered indices are strictly
increasing, so the stable sort realises exactly this order) — and the
filter `score > threshold` rejects every NaN, so the comparator's
`unwrap` is never reached on the filtered sequence; the comparator
itself, however, panics when handed a NaN (see the counterexample),
it does not treat NaN as lowest. -/
theorem c4_sort_behaviour (sims : List Fl) (threshold : Fl) :
    sortOk (keptCandidates sims threshold) = true ∧
    (List.insertionSort scoreRel (keptCandidates sims threshold)).Perm
      (keptCandidates sims threshold) ∧
    List.Sorted scoreRel
      (List.insertionSort scoreRel (keptCandidates sims threshold)) ∧
    List.Pairwise (fun a b : ℕ × Fl => a.1 < b.1)
      (keptCandidates sims threshold) :=
  ⟨sortOk_keptCandidates sims threshold,
   List.perm_insertionSort scoreRel _,
   List.sorted_insertionSort scoreRel _,
   kept_pairwise_fst_lt sims threshold⟩

/-- Claim C4 counterexample. The comparator
`b.1.partial_cmp(&a.1).unwrap()` has no result on a NaN score — the
`unwrap` panics — contradicting the claim that it never panics and
treats NaN as lowest. -/
theorem c4_comparator_nan_counterexample :
    rustCmp (0, Fl.nan) (1, Fl.val 0) = none := by decide

/-- Unfolding equation of `optionTraverse` on a cons cell. -/
theorem optionTraverse_cons {α β : Type} (f : α → Option β) (a : α)
    (l : List α) :
    optionTraverse f (a :: l) =
      match f a with
      | none => none
      | some b => (optionTraverse f l).map fun bs => b :: bs := by
  simp [optionTraverse]

/-- The definition text carried by any dictionary definition variant. -/
def ddDefinition : DictionaryDefinition → String
  | DictionaryDefinition.Definition d => d
  | DictionaryDefinition.DefinitionAndGroup _ d => d
  | DictionaryDefinition.DefinitionAndGroupWithExample _ d _ => d

/-- Claim C5 (amended). A neoharrap group block whose content child count
differs from 3 is handled without raising — the definition text is
empty and the block is either skipped or emitted with that empty text —
and processing of subsequent group blocks continues; except that a
content child list with zero elements makes
`intermediate[intermediate.len() - 1]` panic, aborting the whole
lookup. -/
theorem c5_neoharrap_malformed_counts :
    (∀ (cc : List NeoharrapContent) (gl : List String), cc ≠ [] →
      cc.length ≠ 3 →
      ∃ r, processNeoharrapGroup ⟨some cc, some gl⟩ = some r ∧
        ∀ d, r = some d → ddDefinition d = "") ∧
    (∀ (g : NeoharrapGroup) (r : Option DictionaryDefinition)
        (rest : List NeoharrapGroup), processNeoharrapGroup g = some r →
      processSection (DictSection.neoharrap (g :: rest)) =
        (processSection (DictSection.neoharrap rest)).map
          (fun ds => r.toList ++ ds)) ∧
    (∀ gl : List String,
      processNeoharrapGroup ⟨some [], some gl⟩ = none) := by
  refine ⟨?_, ?_, ?_⟩
  · intro cc gl hne h3
    obtain ⟨x, hx⟩ : ∃ x, cc.getLast? = some x := by
      cases hcc : cc.getLast? with
      | none => exact absurd (List.getLast?_eq_none_iff.mp hcc) hne
      | some x => exact ⟨x, rfl⟩
    simp only [processNeoharrapGroup, hx, if_neg h3]
    split
    · exact ⟨none, rfl, by simp⟩
    · split
      · refine ⟨_, rfl, ?_⟩
        intro d hd
        simp only [Option.some.injEq] at hd
        subst hd
        rfl
      · refine ⟨_, rfl, ?_⟩
        intro d hd
        simp only [Option.some.injEq] at hd
        subst hd
        rfl
  · intro g r rest hg
    have hsec : ∀ xs : List NeoharrapGroup,
        processSection (DictSection.neoharrap xs) =
          (optionTraverse processNeoharrapGroup xs).map
            (fun ds : List (Option DictionaryDefinition) => ds.filterMap id) :=
      fun _ => rfl
    rw [hsec, hsec, optionTraverse_cons, hg]
    cases hrest : optionTraverse processNeoharrapGroup rest with
    | none => rfl
    | some rs => cases r with
      | none => rfl
      | some d => rfl
  · intro gl
    rfl

/-- Witness for C5: a group block with a single content child (count 1,
not 3 and not 0) is processed without raising. -/
theorem c5_neoharrap_malformed_counts_witness :
    ∃ r, processNeoharrapGroup
        ⟨some [⟨["x"], []⟩], some ["adj"]⟩ = some r ∧
      ∀ d, r = some d → ddDefinition d = "" :=
  c5_neoharrap_malformed_counts.1 [⟨["x"], []⟩] ["adj"]
    (by decide) (by decide)

/-- Claim C5 counterexample. A group block whose content child list has
zero elements: the claim says the handler skips it or emits an empty
definition without raising, but `intermediate[intermediate.len() - 1]`
panics. -/
theorem c5_neoharrap_zero_children_counterexample :
    processNeoharrapGroup ⟨some [], some ["adv"]⟩ = none := by decide

/-- A single failing element makes the whole traversal fail. -/
theorem optionTraverse_none_of_mem {α β : Type} (f : α → Option β) :
    ∀ (l : List α) (a : α), a ∈ l → f a = none →
      optionTraverse f l = none := by
  intro l
  induction l with
  | nil =>
    intro a ha _
    simp at ha
  | cons x t ih =>
    intro a ha hfa
    rcases List.mem_cons.mp ha with h | h
    · subst h
      simp [optionTraverse, hfa]
    · cases hx : f x with
      | none => simp [optionTraverse, hx]
      | some b => simp [optionTraverse, hx, ih a h hfa]

/-- When the page has no `a[lang=en]` match anywhere, every definition
iteration panics in `get_text_from_selector`. -/
theorem processNeodictDef_aEn_none (ps : PageSelectors) (g : NeodictGroup)
    (h : ps.aEn = none) : processNeodictDef ps g = none := by
  cases ps with
  | mk aEn spanEs spanEn =>
    simp only at h
    subst h
    cases spanEs <;> cases spanEn <;> cases hgl : g.lastChildSpan <;>
      simp [processNeodictDef]

/-- When the group has no `span:last-child` match, every definition
iteration of that group panics. -/
theorem processNeodictDef_lastChild_none (ps : PageSelectors)
    (ns : Option ℕ) : processNeodictDef ps ⟨ns, none⟩ = none := by
  cases ps with
  | mk aEn spanEs spanEn =>
    cases aEn <;> cases spanEs <;> cases spanEn <;>
      simp [processNeodictDef]

/-- Claim C3 (amended). A missing expected selector match inside a
dictionary section is fatal for the *whole* lookup: the `unwrap` panics
and aborts `search_vocab_inner`, instead of skipping only that
group/definition.  Because `as_dom` wraps the whole document, the three
language-tagged text queries are page-wide, so a page with no
`a[lang=en]` match panics every non-trivial group; the per-group
lookups — the header's next sibling and its `span:last-child` — panic
that group, a panicking group panics its section, and a panicking
section panics the lookup.  Moreover the lookup never fails with an
error value at all (its only failure mode is a panic, including on
fetch failure, cf. C8). -/
theorem c3_missing_selector_fatal :
    (∀ (w : String) (resp : ℕ) (text : ℕ → Except String String)
        (parseSections : String → List DictSection) (body : String)
        (s : DictSection), text resp = Except.ok body →
        s ∈ parseSections body → processSection s = none →
        search_vocab_inner_m w (Except.ok resp) text parseSections = none) ∧
    (∀ (ps : PageSelectors) (ls : Option (List String)),
        processNeodictGroup ps ⟨none, ls⟩ = none) ∧
    (∀ (ps : PageSelectors) (k : ℕ) (gl : Option (List String)),
        ps.aEn = none →
        processNeodictGroup ps ⟨some (k + 1), gl⟩ = none) ∧
    (∀ (ps : PageSelectors) (k : ℕ),
        processNeodictGroup ps ⟨some (k + 1), none⟩ = none) ∧
    (∀ (ps : PageSelectors) (gs : List NeodictGroup) (g : NeodictGroup),
        g ∈ gs → processNeodictGroup ps g = none →
        processSection (DictSection.neodict ps gs) = none) ∧
    (∀ (w : String) (send : Except String ℕ)
        (text : ℕ → Except String String)
        (parseSections : String → List DictSection) r,
        search_vocab_inner_m w send text parseSections = some r →
        ∃ e, r = Except.ok e) := by
  refine ⟨?_, ?_, ?_, ?_, ?_, ?_⟩
  · intro w resp text parseSections body s htext hs hnone
    simp only [search_vocab_inner_m, htext,
      optionTraverse_none_of_mem processSection (parseSections body) s hs
        hnone]
  · intro ps ls
    rfl
  · intro ps k gl haEn
    simp only [processNeodictGroup,
      optionTraverse_none_of_mem (fun _ => processNeodictDef ps ⟨some (k + 1), gl⟩)
        (List.range (k + 1)) 0 (by simp)
        (processNeodictDef_aEn_none ps ⟨some (k + 1), gl⟩ haEn)]
  · intro ps k
    simp only [processNeodictGroup,
      optionTraverse_none_of_mem (fun _ => processNeodictDef ps ⟨some (k + 1), none⟩)
        (List.range (k + 1)) 0 (by simp)
        (processNeodictDef_lastChild_none ps (some (k + 1)))]
  · intro ps gs g hg hnone
    simp only [processSection,
      optionTraverse_none_of_mem (processNeodictGroup ps) gs g hg hnone,
      Option.map_none']
  · intro w send text parseSections r h
    cases send with
    | error e =>
      exact absurd h (by simp [search_vocab_inner_m])
    | ok resp =>
      cases htext : text resp with
      | error e =>
        simp [search_vocab_inner_m, htext] at h
      | ok body =>
        cases hm : optionTraverse processSection (parseSections body) with
        | none =>
          simp [search_vocab_inner_m, htext, hm] at h
        | some defss =>
          simp [search_vocab_inner_m, htext, hm] at h
          exact ⟨_, h.symm⟩

/-- Page oracle for the C3 counterexample: the document-wide
language-tagged selectors all match (the page does contain an
`a[lang=en]` anchor and both spans, the same first match seen by every
block), the first group header has a sibling block with one definition
child, and the second group header — the last node of its parent — has
no next sibling. -/
def c3Page : String → List DictSection := fun _ =>
  [DictSection.neodict
    { aEn := some ["run"], spanEs := some ["corro todos los dias"],
      spanEn := some ["I run every day"] }
    [{ nextSiblingChildren := some 1, lastChildSpan := some ["(verb)"] },
     { nextSiblingChildren := none, lastChildSpan := some ["(noun)"] }]]

/-- Claim C3 counterexample. On a successfully fetched page where one
group header lacks its expected next sibling, the claim says only that
group is skipped and the lookup still returns the entry built from the
remaining group; instead `next_sibling().unwrap()` panics and the whole
lookup aborts (`none`). -/
theorem c3_missing_selector_counterexample :
    search_vocab_inner_m "luz" (Except.ok 0) (fun _ => Except.ok "<html>")
      c3Page = none := rfl

/-- Witness for C3: the general theorem applied at a concrete page
with no `a[lang=en]` match and a group with one definition child. -/
theorem c3_missing_selector_fatal_witness :
    processNeodictGroup
      { aEn := none, spanEs := some ["b"], spanEn := some ["c"] }
      ⟨some 1, some ["g"]⟩ = none :=
  c3_missing_selector_fatal.2.2.1
    { aEn := none, spanEs := some ["b"], spanEn := some ["c"] }
    0 (some ["g"]) rfl

/-- A lookup attempt that produced no usable result without panicking:
either an `Ok` entry with an empty definition list, or an `Err`. -/
def innerNoResult : Option (Except String DictionaryEntry) → Prop
  | some (Except.ok e) => e.definitions = []
  | some (Except.error _) => True
  | none => False

/-- A no-result attempt makes the direct-lookup loop move on to the
next attempt. -/
theorem directLoop_step (inner : ℕ → Option (Except String DictionaryEntry))
    (i n : ℕ) (h : innerNoResult (inner i)) :
    directLoop inner i (n + 1) = directLoop inner (i + 1) n := by
  cases hi : inner i with
  | none =>
    rw [hi] at h
    exact absurd h (by simp [innerNoResult])
  | some r =>
    cases r with
    | error s => simp [directLoop, hi]
    | ok e =>
      rw [hi] at h
      have : e.definitions.isEmpty = true := by
        simp [List.isEmpty_iff]
        exact h
      simp [directLoop, hi, this]

/-- A successful exit of the direct-lookup loop carries a non-empty
definition list. -/
theorem directLoop_ok (inner : ℕ → Option (Except String DictionaryEntry)) :
    ∀ (n i : ℕ) (e : DictionaryEntry),
      directLoop inner i n = some (some e) → e.definitions.isEmpty = false := by
  intro n
  induction n with
  | zero =>
    intro i e h
    simp [directLoop] at h
  | succ n ih =>
    intro i e h
    cases hi : inner i with
    | none => simp [directLoop, hi] at h
    | some r =>
      cases r with
      | error s =>
        simp only [directLoop, hi] at h
        exact ih _ _ h
      | ok e' =>
        simp only [directLoop, hi] at h
        by_cases hemp : e'.definitions.isEmpty
        · rw [if_pos hemp] at h
          exact ih _ _ h
        · rw [if_neg hemp] at h
          simp only [Option.some.injEq] at h
          subst h
          exact Bool.eq_false_iff.mpr hemp

/-- A predicted keyword whose lookup yields no result makes the
fallback loop move on to the next attempt. -/
theorem fallbackLoop_step
    (inner : ℕ → String → Option (Except String DictionaryEntry))
    (predict : ℕ → Except String (List (List String)))
    (j n : ℕ) (kw : String) (t : List String) (r : List (List String))
    (hp : predict j = Except.ok ((kw :: t) :: r))
    (h : innerNoResult (inner j kw)) :
    fallbackLoop inner predict j (n + 1) =
      fallbackLoop inner predict (j + 1) n := by
  cases hi : inner j kw with
  | none =>
    rw [hi] at h
    exact absurd h (by simp [innerNoResult])
  | some x =>
    cases x with
    | error s => simp [fallbackLoop, hp, hi]
    | ok e =>
      rw [hi] at h
      have : e.definitions.isEmpty = true := by
        simp [List.isEmpty_iff]
        exact h
      simp [fallbackLoop, hp, hi, this]

/-- A successful exit of the keyword-fallback loop carries a non-empty
definition list. -/
theorem fallbackLoop_ok
    (inner : ℕ → String → Option (Except String DictionaryEntry))
    (predict : ℕ → Except String (List (List String))) :
    ∀ (n j : ℕ) (e : DictionaryEntry),
      fallbackLoop inner predict j n = some (Except.ok (some e)) →
      e.definitions.isEmpty = false := by
  intro n
  induction n with
  | zero =>
    intro j e h
    simp [fallbackLoop] at h
  | succ n ih =>
    intro j e h
    cases hp : predict j with
    | error s => simp [fallbackLoop, hp] at h
    | ok pred =>
      cases hpred : pred.head? with
      | none =>
        simp only [fallbackLoop, hp, hpred] at h
        exact ih _ _ h
      | some kws =>
        cases hkw : kws.head? with
        | none =>
          simp only [fallbackLoop, hp, hpred, hkw] at h
          exact ih _ _ h
        | some kw =>
          cases hi : inner j kw with
          | none => simp [fallbackLoop, hp, hpred, hkw, hi] at h
          | some x =>
            cases x with
            | error s =>
              simp only [fallbackLoop, hp, hpred, hkw, hi] at h
              exact ih _ _ h
            | ok e' =>
              simp only [fallbackLoop, hp, hpred, hkw, hi] at h
              by_cases hemp : e'.definitions.isEmpty
              · rw [if_pos hemp] at h
                exact ih _ _ h
              · rw [if_neg hemp] at h
                simp only [Option.some.injEq, Except.ok.injEq] at h
                subst h
                exact Bool.eq_false_iff.mpr hemp

/-- Claim C7. `search_vocab` never returns a success whose definition list
is empty; when both direct attempts yield no result and a predicted
keyword's lookup succeeds with a non-empty definition list, that entry
is returned; and when the two direct attempts and the two keyword
attempts are all exhausted without a usable result, the call returns the
`failed to search for word` error. -/
theorem c7_search_vocab_keyword_fallback :
    (∀ (w : String)
        (inner : ℕ → String → Option (Except String DictionaryEntry))
        (predict : ℕ → Except String (List (List String)))
        (e : DictionaryEntry),
      search_vocab_m w inner predict = some (Except.ok e) →
      e.definitions ≠ []) ∧
    (∀ (w kw : String)
        (inner : ℕ → String → Option (Except String DictionaryEntry))
        (predict : ℕ → Except String (List (List String)))
        (t : List String) (rest : List (List String)) (e : DictionaryEntry),
      innerNoResult (inner 0 w) → innerNoResult (inner 1 w) →
      predict 2 = Except.ok ((kw :: t) :: rest) →
      inner 2 kw = some (Except.ok e) → e.definitions ≠ [] →
      search_vocab_m w inner predict = some (Except.ok e)) ∧
    (∀ (w k2 k3 : String)
        (inner : ℕ → String → Option (Except String DictionaryEntry))
        (predict : ℕ → Except String (List (List String)))
        (t2 t3 : List String) (r2 r3 : List (List String)),
      innerNoResult (inner 0 w) → innerNoResult (inner 1 w) →
      predict 2 = Except.ok ((k2 :: t2) :: r2) →
      predict 3 = Except.ok ((k3 :: t3) :: r3) →
      innerNoResult (inner 2 k2) → innerNoResult (inner 3 k3) →
      search_vocab_m w inner predict =
        some (Except.error ("failed to search for word: " ++ w))) := by
  refine ⟨?_, ?_, ?_⟩
  · intro w inner predict e h
    unfold search_vocab_m at h
    cases hd : directLoop (fun i => inner i w) 0 2 with
    | none =>
      rw [hd] at h
      exact absurd h (by simp)
    | some o =>
      rw [hd] at h
      cases o with
      | some e' =>
        simp only [Option.some.injEq, Except.ok.injEq] at h
        have hne := directLoop_ok (fun i => inner i w) 2 0 e' hd
        rw [h] at hne
        simp [List.isEmpty_iff] at hne
        exact hne
      | none =>
        cases hf : fallbackLoop inner predict 2 2 with
        | none =>
          rw [hf] at h
          exact absurd h (by simp)
        | some x =>
          rw [hf] at h
          cases x with
          | error s => exact absurd h (by simp)
          | ok o' =>
            cases o' with
            | none => exact absurd h (by simp)
            | some e' =>
              simp only [Option.some.injEq, Except.ok.injEq] at h
              have hne := fallbackLoop_ok inner predict 2 2 e' hf
              rw [h] at hne
              simp [List.isEmpty_iff] at hne
              exact hne
  · intro w kw inner predict t rest e h0 h1 hp2 hkw he
    have hd : directLoop (fun i => inner i w) 0 2 = some none := by
      rw [directLoop_step _ _ _ h0, directLoop_step _ _ _ h1]
      rfl
    have hemp : e.definitions.isEmpty = false := by
      simp [List.isEmpty_iff]
      exact he
    have hf : fallbackLoop inner predict 2 2 = some (Except.ok (some e)) := by
      simp [fallbackLoop, hp2, hkw, hemp]
    simp [search_vocab_m, hd, hf]
  · intro w k2 k3 inner predict t2 t3 r2 r3 h0 h1 hp2 hp3 hk2 hk3
    have hd : directLoop (fun i => inner i w) 0 2 = some none := by
      rw [directLoop_step _ _ _ h0, directLoop_step _ _ _ h1]
      rfl
    have hf : fallbackLoop inner predict 2 2 = some (Except.ok none) := by
      rw [fallbackLoop_step _ _ _ _ _ _ _ hp2 hk2,
        fallbackLoop_step _ _ _ _ _ _ _ hp3 hk3]
      rfl
    simp [search_vocab_m, hd, hf]

/-- Oracle for the C7 witness: both direct lookups of the phrase find
an entry with zero definitions; the keyword model proposes `luz`, whose
lookup succeeds. -/
def c7Inner : ℕ → String → Option (Except String DictionaryEntry) :=
  fun i w =>
    if i ≤ 1 then some (Except.ok { word := w, definitions := [] })
    else some (Except.ok
      { word := w,
        definitions := [DictionaryDefinition.Definition "light"] })

/-- Keyword oracle for the C7 witness. -/
def c7Predict : ℕ → Except String (List (List String)) :=
  fun _ => Except.ok [["luz"]]

/-- Witness for C7: the direct lookups of `la luz del sol` return zero
definitions, the fallback keyword `luz` succeeds, and the overall call
returns the fallback entry. -/
theorem c7_search_vocab_keyword_fallback_witness :
    search_vocab_m "la luz del sol" c7Inner c7Predict =
      some (Except.ok
        { word := "luz",
          definitions := [DictionaryDefinition.Definition "light"] }) :=
  c7_search_vocab_keyword_fallback.2.1 "la luz del sol" "luz" c7Inner
    c7Predict [] [] _ (by simp [innerNoResult, c7Inner])
    (by simp [innerNoResult, c7Inner]) rfl rfl (by simp)

/-- Dictionary entry for `luz` used in the orchestrator scenarios. -/
def luzEntry : DictionaryEntry :=
  { word := "luz",
    definitions := [DictionaryDefinition.DefinitionAndGroupWithExample
      "noun" "light"
      [DictionaryExample.ExampleAndTranslation
        "la luz es bonita" "the light is pretty"]] }

/-- Dictionary entry for `sol` used in the orchestrator scenarios. -/
def solEntry : DictionaryEntry :=
  { word := "sol",
    definitions := [DictionaryDefinition.DefinitionAndGroupWithExample
      "noun" "sun"
      [DictionaryExample.ExampleAndTranslation
        "el sol brilla" "the sun shines"]] }

/-- Environment for the C1 scenario: both words find one image
candidate and a dictionary entry; every download for `luz`'s candidate
fails, while `sol`'s candidate downloads fine. -/
def c1Env : EnrichEnv :=
  { imgSearch := fun w =>
      some (Except.ok (if w = "luz" then [0] else [1])),
    dict := fun w =>
      some (Except.ok (if w = "luz" then luzEntry else solEntry)),
    download := fun c =>
      if c = 1 then Except.ok { width := 2, height := 2 }
      else Except.error "404",
    pick := fun _ _ => 0,
    score := fun _ _ => Fl.val 1 }

/-- Claim C1 (code bug). In the batch `[luz, sol]` where every image
candidate for `luz` fails to download, `luz`'s task exhausts its
candidate list and panics at `images.remove(random % 0)` (the
`None => Err` arm at lines 321-323 is unreachable — `break Some` is the
loop's only exit); the resulting `JoinError` is silently dropped by
`.filter_map(|res| res.ok())`, so the batch returns one record for two
inputs instead of emitting a placeholder for `luz`.  The sibling task
for `sol` still completes. -/
theorem c1_all_downloads_fail_drops_word :
    create_visual_vocabs_m c1Env
      [{ word := "luz", definition := "light" },
       { word := "sol", definition := "sun" }] =
      [{ word := "sol", definition := "sun",
         image := { width := 2, height := 2 },
         «example» := "el sol brilla" }] := by decide

/-- Environment for the C9 counterexample: the image search finds a
candidate, but the dictionary lookup returns an `Err` — as
`search_vocab` genuinely does once its two direct and two
keyword-fallback attempts are exhausted (`failed to search for word`,
spanish_dict.rs:118-121) — so the task takes the `Err` path of
`create_visual_vocab` and the orchestrator substitutes
`VisualFlashCard::default()`.  (The image-search step itself never
returns an `Err` — its failures panic, cf. C8 — so the dictionary
error is the realizable `Err` trigger.) -/
def c9Env : EnrichEnv :=
  { imgSearch := fun _ => some (Except.ok [0]),
    dict := fun _ =>
      some (Except.error "failed to search for word: luz"),
    download := fun _ => Except.ok { width := 2, height := 2 },
    pick := fun _ _ => 0,
    score := fun _ _ => Fl.val 1 }

/-- Claim C9 counterexample. When the dictionary enrichment for `luz`
fails (an exhausted lookup), the pipeline does construct a
`VisualFlashCard` — the placeholder `VisualFlashCard::default()` — and
its `example` (and `word`) are the empty string, contradicting the
claim that a VisualFlashCard is only ever constructed with a non-empty
example and that no VisualFlashcard is produced for a failed word. -/
theorem c9_empty_placeholder_counterexample :
    create_visual_vocabs_m c9Env
      [{ word := "luz", definition := "light" }] =
      [VisualFlashCard.default] ∧
    VisualFlashCard.default.«example» = "" ∧
    VisualFlashCard.default.word = "" :=
  ⟨by decide, rfl, rfl⟩

/-- A success-path card copies its word and definition from the input
flashcard. -/
theorem create_visual_vocab_m_ok_fields (env : EnrichEnv) (v : Flashcard)
    (c : VisualFlashCard)
    (h : create_visual_vocab_m env v = some (Except.ok c)) :
    c.word = v.word ∧ c.definition = v.definition := by
  simp only [create_visual_vocab_m] at h
  repeat' split at h
  all_goals try exact Option.noConfusion h
  all_goals try exact Except.noConfusion (Option.some.inj h)
  all_goals
    have hc := Except.ok.inj (Option.some.inj h)
    rw [← hc]
    exact ⟨rfl, rfl⟩

/-- Claim C9 (amended). Every record in the batch output is either the
success-path card — whose word and definition are copied from the input
flashcard — or the placeholder `VisualFlashCard::default()`, which is
itself a constructed VisualFlashCard whose word, definition and example
are all empty: a failed enrichment yields the placeholder rather than
no record, and only a panicked task's word is omitted. -/
theorem c9_output_cards_characterised (env : EnrichEnv)
    (inputs : List Flashcard) (c : VisualFlashCard)
    (hc : c ∈ create_visual_vocabs_m env inputs) :
    c = VisualFlashCard.default ∨
      ∃ v ∈ inputs, create_visual_vocab_m env v = some (Except.ok c) ∧
        c.word = v.word ∧ c.definition = v.definition := by
  unfold create_visual_vocabs_m at hc
  obtain ⟨v, hv, hout⟩ := List.mem_filterMap.mp hc
  unfold taskOutcome at hout
  cases hcv : create_visual_vocab_m env v with
  | none =>
    rw [hcv] at hout
    exact absurd hout (by simp)
  | some x =>
    rw [hcv] at hout
    cases x with
    | error s =>
      simp only [Option.some.injEq] at hout
      exact Or.inl hout.symm
    | ok c' =>
      simp only [Option.some.injEq] at hout
      have hcv' : create_visual_vocab_m env v = some (Except.ok c) := by
        rw [hcv, hout]
      obtain ⟨hw, hd⟩ := create_visual_vocab_m_ok_fields env v c hcv'
      exact Or.inr ⟨v, hv, hcv', hw, hd⟩

/-- Witness for C9: the placeholder produced for the failing word `luz`
is characterised by the theorem at a concrete environment. -/
theorem c9_output_cards_characterised_witness :
    VisualFlashCard.default = VisualFlashCard.default ∨
      ∃ v ∈ [({ word := "luz", definition := "light" } : Flashcard)],
        create_visual_vocab_m c9Env v =
          some (Except.ok VisualFlashCard.default) ∧
        VisualFlashCard.default.word = v.word ∧
        VisualFlashCard.default.definition = v.definition :=
  c9_output_cards_characterised c9Env
    [{ word := "luz", definition := "light" }] VisualFlashCard.default
    (by decide)

end SpanishPipeline
